import Mathlib

/-!
Shallow embedding of the Ramblin-Recs front end (TypeScript/React) in Lean 4.

Conventions of the embedding:
* browser-local storage slots are passed explicitly; the `saved_events` slot is
  an `Option (Except String (List String))`: `none` is a missing key, and a
  present raw string is represented by the outcome of `JSON.parse` on it
  (`Except.ok ids` for a well-formed id array, `Except.error msg` for a raw
  value that does not parse);
* browser builtins (`JSON.parse`, `new URL`, `Date` parsing,
  `encodeURIComponent`) are either modelled over character lists
  (`String.prototype.trim`, `String.prototype.split`) or taken as explicit
  function parameters;
* React state updates become explicit state records; network requests and
  alerts a handler performs are returned as data.
-/

deriving instance DecidableEq for Except

namespace RamblinRecs

/-! ### JS string builtins, modelled over the character list -/

/-- Model of `String.prototype.split(sep)` for a one-character separator, on
character lists: splitting never yields `[]`, and a trailing separator yields a
trailing empty field. -/
def jsSplit (sep : Char) : List Char → List (List Char)
  | [] => [[]]
  | c :: rest =>
    match jsSplit sep rest with
    | [] => [[]]
    | w :: ws => if c = sep then [] :: w :: ws else (c :: w) :: ws

/-- Model of `String.prototype.split(sep)` on strings. -/
def jsSplitStr (sep : Char) (s : String) : List String :=
  (jsSplit sep s.data).map String.mk

/-- Characters remaining after trimming whitespace from both ends of a list. -/
def jsTrimL (l : List Char) : List Char :=
  ((l.dropWhile Char.isWhitespace).reverse.dropWhile Char.isWhitespace).reverse

/-- Model of `String.prototype.trim()`. -/
def jsTrim (s : String) : String :=
  String.mk (jsTrimL s.data)

/-! ### Event shape (`EventT` in `components/EventCard.tsx`)

The numeric `score` field is display-only (a float never read by any logic
modelled here) and is omitted. -/

structure EventT where
  id : String
  title : String
  start_time : String
  location : Option String := none
  tags : List String := []
  summary : Option String := none
  why : Option String := none
  url : Option String := none
  description : Option String := none
  host : Option String := none
deriving DecidableEq, Repr

/-! ### The `saved_events` storage slot -/

/-- Model of `JSON.parse(localStorage.getItem('saved_events') || '[]')`: a
missing key defaults to the literal `"[]"`, which parses to the empty list;
a present raw value contributes its own parse outcome. -/
def readSavedIds (slot : Option (Except String (List String))) :
    Except String (List String) :=
  slot.getD (Except.ok [])

/-- Outcome of `checkIfSaved` in `EventCard.tsx`: the resulting `isSaved`
state (initially `false`; `setIsSaved` is not reached when the parse throws)
and whether a console diagnostic was emitted by the `catch`. -/
structure CheckResult where
  isSaved : Bool
  consoleErr : Bool
deriving DecidableEq, Repr

/-- Embedding of `checkIfSaved` from `EventCard.tsx`. -/
def checkIfSaved (evId : String)
    (slot : Option (Except String (List String))) : CheckResult :=
  match readSavedIds slot with
  | Except.ok savedEvents => ⟨savedEvents.contains evId, false⟩
  | Except.error _ => ⟨false, true⟩

/-- Effects of an `EventCard` handler: the `saved_events` slot after the call,
the alerts raised, and the backend request paths issued. -/
structure EffectResult where
  store : Option (Except String (List String))
  alerts : List String
  requests : List String
deriving DecidableEq, Repr

/-- Embedding of `toggleSave` from `EventCard.tsx`. `isSaved` is the React
state selecting the branch; a write of a list `l` stores `JSON.stringify(l)`,
whose parse outcome is `Except.ok l`. -/
def toggleSave (userId evId : String) (isSaved : Bool)
    (store : Option (Except String (List String))) : EffectResult :=
  if userId = "" then ⟨store, ["Please onboard first."], []⟩
  else if isSaved then
    match readSavedIds store with
    | Except.ok savedEvents =>
        ⟨some (Except.ok (savedEvents.filter (fun id => id ≠ evId))), [], []⟩
    | Except.error _ =>
        ⟨store, ["Failed to save/unsave event. Please try again."], []⟩
  else
    match readSavedIds store with
    | Except.ok savedEvents =>
        if savedEvents.contains evId then ⟨store, [], []⟩
        else ⟨some (Except.ok (savedEvents ++ [evId])), [], []⟩
    | Except.error _ =>
        ⟨store, ["Failed to save/unsave event. Please try again."], []⟩

/-- The two user signals of `EventCard.tsx`. -/
inductive SignalKind
  | clicked
  | saved
deriving DecidableEq, Repr

/-- Embedding of `signal` from `EventCard.tsx`: the `saved` kind delegates to
`toggleSave`; the `clicked` kind posts to `/feedback`. -/
def signal (kind : SignalKind) (userId evId : String) (isSaved : Bool)
    (store : Option (Except String (List String))) : EffectResult :=
  if userId = "" then ⟨store, ["Please onboard first."], []⟩
  else
    match kind with
    | SignalKind.saved => toggleSave userId evId isSaved store
    | SignalKind.clicked => ⟨store, [], ["/feedback"]⟩

/-! ### Onboarding (`pages/Onboarding.tsx`) -/

/-- Model of iterating `Set.add` over a list, as
`Array.from(new Set(xs))` does: each element is kept at its first
occurrence; `seen` holds the elements already emitted. -/
def dedupFirstAux (seen : List String) : List String → List String
  | [] => []
  | a :: l =>
    if seen.contains a then dedupFirstAux seen l
    else a :: dedupFirstAux (a :: seen) l

/-- Model of `Array.from(new Set(xs))`: insertion-order deduplication. -/
def dedupFirst (l : List String) : List String :=
  dedupFirstAux [] l

/-- The `customs` value of `submit` in `Onboarding.tsx`:
`custom.split(",").map(s => s.trim()).filter(Boolean)`. -/
def parseCustomInterests (custom : String) : List String :=
  ((jsSplitStr ',' custom).map jsTrim).filter (fun s => s ≠ "")

/-- The `interests` value of `submit` in `Onboarding.tsx`:
`Array.from(new Set([...selected, ...customs]))`. -/
def submittedInterests (selected : List String) (custom : String) : List String :=
  dedupFirst (selected ++ parseCustomInterests custom)

/-- General browser-local storage, as an association list over keys. -/
def storeSet (store : List (String × String)) (k v : String) :
    List (String × String) :=
  (k, v) :: store.filter (fun kv => kv.1 ≠ k)

/-- Model of `localStorage.getItem(k)`. -/
def storeGet (store : List (String × String)) (k : String) : Option String :=
  (store.find? (fun kv => kv.1 == k)).map (fun kv => kv.2)

/-- View state of the Onboarding page: generic local storage, the inline
error text, and the route navigated to. -/
structure OnbState where
  store : List (String × String)
  error : Option String
  route : Option String
deriving DecidableEq, Repr

/-- Body of the `POST /users/bootstrap` request. -/
structure BootstrapRequest where
  email : String
  display_name : Option String
  interests : List String
deriving DecidableEq, Repr

/-- Embedding of `submit` from `Onboarding.tsx`. `bootstrap` is the outcome of
the `postJSON("/users/bootstrap", ...)` call (`Except.ok id` on success,
`Except.error msg` when the call throws an error with message `msg`); the
second component is the request body posted, `none` when no call was made. -/
def submitOnboarding (email name : String) (selected : List String)
    (custom : String) (bootstrap : Except String String) (s : OnbState) :
    OnbState × Option BootstrapRequest :=
  let s0 := { s with error := none }
  let interests := submittedInterests selected custom
  if email = "" then
    ({ s0 with error := some "Please enter an email." }, none)
  else
    let req : BootstrapRequest :=
      ⟨email, if name = "" then none else some name, interests⟩
    match bootstrap with
    | Except.ok uid =>
        ({ s0 with store := storeSet s0.store "user_id" uid,
                   route := some "/feed" }, some req)
    | Except.error msg =>
        ({ s0 with error := some msg }, some req)

/-! ### HTTP helpers (`api.ts`) -/

/-- Errors a helper in `api.ts` can produce: the generic
`new Error(`...status statusText...`)` thrown on a non-ok response, or a
rejection of `r.json()` on an undecodable body. -/
inductive FetchErr
  | http (status : Nat) (statusText : String)
  | parse (msg : String)
deriving DecidableEq, Repr

/-- A fetch response: status, status text, and the outcome of `r.json()`
decoding the body into an `α`. -/
structure FetchResponse (α : Type) where
  status : Nat
  statusText : String
  json : Except String α

/-- The `Response.ok` flag of the fetch API: status in the range 200-299. -/
def respOk (status : Nat) : Bool :=
  200 ≤ status && status ≤ 299

/-- Embedding of `getJSON` from `api.ts`, as a function of the response the
single fetch produced. -/
def getJSON {α : Type} (path : String) (r : FetchResponse α) :
    Except FetchErr α :=
  if respOk r.status then r.json.mapError FetchErr.parse
  else Except.error (FetchErr.http r.status r.statusText)

/-- Embedding of `postJSON` from `api.ts`. -/
def postJSON {α : Type} (path : String) (body : String) (r : FetchResponse α) :
    Except FetchErr α :=
  if respOk r.status then r.json.mapError FetchErr.parse
  else Except.error (FetchErr.http r.status r.statusText)

/-- Embedding of `deleteJSON` from `api.ts`. -/
def deleteJSON {α : Type} (path : String) (params : List (String × String))
    (r : FetchResponse α) : Except FetchErr α :=
  if respOk r.status then r.json.mapError FetchErr.parse
  else Except.error (FetchErr.http r.status r.statusText)

/-! ### Saved-events view (`pages/SavedEvents.tsx`)

`dateVal` abstracts the browser builtin `s => new Date(s).getTime()` used by
the sort comparator. -/

/-- The sort order of `loadSavedEvents`: ascending `new Date(...).getTime()`
of the `start_time` fields. -/
def startLe (dateVal : String → Nat) (a b : EventT) : Prop :=
  dateVal a.start_time ≤ dateVal b.start_time

instance (dateVal : String → Nat) : DecidableRel (startLe dateVal) :=
  fun a b => Nat.decLe (dateVal a.start_time) (dateVal b.start_time)

instance (dateVal : String → Nat) : IsTotal EventT (startLe dateVal) :=
  ⟨fun a b => Nat.le_total (dateVal a.start_time) (dateVal b.start_time)⟩

instance (dateVal : String → Nat) : IsTrans EventT (startLe dateVal) :=
  ⟨fun _ _ _ hab hbc => Nat.le_trans hab hbc⟩

/-- Model of `savedEventsList.sort((a, b) => new Date(a.start_time).getTime()
- new Date(b.start_time).getTime())`: a stable ascending sort on the date
value, rendered as insertion sort. -/
def sortByStartTime (dateVal : String → Nat) (l : List EventT) : List EventT :=
  List.insertionSort (startLe dateVal) l

/-- Outcome of `loadSavedEvents`: the `savedEvents` state after the call,
whether the feed fetch was issued, and whether the `catch` logged a console
diagnostic. -/
structure SavedLoadResult where
  savedEvents : List EventT
  fetched : Bool
  consoleErr : Bool
deriving DecidableEq, Repr

/-- Embedding of `loadSavedEvents` from `SavedEvents.tsx`. `slot` is the
`saved_events` storage slot; `feedEvents` is the `events` field of the
`/events/feed` response (`feedResponse.events || []` reads `none` as `[]`). -/
def loadSavedEvents (dateVal : String → Nat) (userId : String)
    (slot : Option (Except String (List String)))
    (feedEvents : Option (List EventT)) : SavedLoadResult :=
  if userId = "" then ⟨[], false, false⟩
  else
    match readSavedIds slot with
    | Except.error _ => ⟨[], false, true⟩
    | Except.ok savedEventIds =>
      if savedEventIds.length = 0 then ⟨[], false, false⟩
      else
        let allEvents := feedEvents.getD []
        let savedEventsList :=
          allEvents.filter (fun e => savedEventIds.contains e.id)
        ⟨sortByStartTime dateVal savedEventsList, true, false⟩

/-- What the Saved-events page renders: the onboarding prompt, the
no-saved-events message, or the list of cards. -/
inductive SavedView
  | onboardPrompt
  | emptyState
  | eventList (events : List EventT)
deriving DecidableEq, Repr

/-- Embedding of the render branch of `SavedEvents.tsx` (after loading has
finished). -/
def renderSavedEvents (userId : String) (savedEvents : List EventT) :
    SavedView :=
  if userId = "" then SavedView.onboardPrompt
  else if 0 < savedEvents.length then SavedView.eventList savedEvents
  else SavedView.emptyState

/-! ### Feed view (paginated revision of `pages/Feed.tsx`) -/

/-- The pagination envelope of the feed response. -/
structure Pagination where
  current_page : Nat
  total_pages : Nat
  total_events : Nat
  events_per_page : Nat
  has_next : Bool
  has_previous : Bool
deriving DecidableEq, Repr

/-- The `/events/feed` response shape of the paginated revision. -/
structure FeedResponse where
  events : List EventT
  pagination : Pagination
deriving DecidableEq, Repr

/-- The Feed view state touched by `loadFeed` and `doSearch`. -/
structure FeedState where
  events : List EventT
  pagination : Option Pagination
  currentPage : Nat
  loading : Bool
deriving DecidableEq, Repr

/-- The request path `loadFeed` issues. -/
def feedPath (userId : String) (page : Nat) : String :=
  if userId ≠ "" then
    "/events/feed?user_id=" ++ userId ++ "&limit=20&page=" ++ toString page
  else
    "/events/feed?limit=20&page=" ++ toString page

/-- The request path `doSearch` issues on a non-blank query;
`encodeURIComponent` abstracts the browser builtin. -/
def searchPath (encodeURIComponent : String → String) (userId q : String) :
    String :=
  "/events/search?q=" ++ encodeURIComponent q ++ "&limit=20&user_id=" ++ userId

/-- Embedding of `loadFeed` from the paginated Feed revision, as the request
path issued and the state after its response `resp` arrives. -/
def loadFeed (userId : String) (page : Nat) (resp : FeedResponse)
    (s : FeedState) : String × FeedState :=
  (feedPath userId page,
   { s with events := resp.events, pagination := some resp.pagination,
            currentPage := page, loading := false })

/-- Embedding of `doSearch` from the paginated Feed revision: a blank query
delegates to `loadFeed(1)`; otherwise the search request is issued and its
response `searchResp` replaces the events, clearing pagination. -/
def doSearch (encodeURIComponent : String → String) (userId q : String)
    (feedResp : FeedResponse) (searchResp : List EventT) (s : FeedState) :
    String × FeedState :=
  if jsTrim q = "" then loadFeed userId 1 feedResp s
  else
    (searchPath encodeURIComponent userId q,
     { s with events := searchResp, pagination := none, loading := false })

/-! ### The `domain` derivation of `EventCard.tsx`

`parseHost` abstracts `u => new URL(u).hostname`: `none` models the
constructor throwing. -/

/-- Model of `hostname.replace(/^www\./, "")`: strip one leading `www.`. -/
def stripWww (host : String) : String :=
  if host.data.take 4 = ['w', 'w', 'w', '.'] then String.mk (host.data.drop 4)
  else host

/-- Embedding of the `domain` IIFE in `EventCard.tsx`: the guard `ev.url ?`
is falsy for a missing or empty url, and the `catch` maps a throwing
`new URL` to the empty string. -/
def domain (parseHost : String → Option String) (ev : EventT) : String :=
  match ev.url with
  | none => ""
  | some u =>
    if u = "" then ""
    else
      match parseHost u with
      | none => ""
      | some host => stripWww host

/-! ### Theorems -/

/-- C1: the saved-id toggle is idempotent: the save branch of `toggleSave`
applied when the stored set already contains the event id leaves the stored
set unchanged, and the unsave branch applied when the stored set does not
contain the id leaves the stored set unchanged, for every event id and every
stored set. -/
theorem toggleSave_idempotent (userId evId : String) (l : List String)
    (h : userId ≠ "") :
    (evId ∈ l →
      (toggleSave userId evId false (some (Except.ok l))).store
        = some (Except.ok l)) ∧
    (evId ∉ l →
      (toggleSave userId evId true (some (Except.ok l))).store
        = some (Except.ok l)) := by
  constructor
  · intro hmem
    simp [toggleSave, readSavedIds, h, hmem]
  · intro hmem
    simp only [toggleSave, readSavedIds, if_neg h, if_pos rfl, Option.getD_some]
    simp only [if_true]
    refine congrArg (fun l => some (Except.ok l)) ?_
    refine List.filter_eq_self.mpr fun a ha => ?_
    simp only [ne_eq, decide_eq_true_eq]
    exact fun heq => hmem (heq ▸ ha)

theorem toggleSave_idempotent_witness :
    (toggleSave "u1" "e1" false (some (Except.ok ["e1"]))).store
      = some (Except.ok ["e1"]) ∧
    (toggleSave "u1" "e2" true (some (Except.ok ["e1"]))).store
      = some (Except.ok ["e1"]) :=
  ⟨(toggleSave_idempotent "u1" "e1" ["e1"] (by decide)).1 (by decide),
   (toggleSave_idempotent "u1" "e2" ["e1"] (by decide)).2 (by decide)⟩

/-- C2: for every stored `saved_events` list in which each id occurs at most
once, both branches of `toggleSave` preserve that property: the stored value
after the call is still a well-formed list containing each id at most once. -/
theorem toggleSave_preserves_nodup (userId evId : String) (b : Bool)
    (l : List String) (h : l.Nodup) :
    ∃ l', (toggleSave userId evId b (some (Except.ok l))).store
            = some (Except.ok l') ∧ l'.Nodup := by
  by_cases hu : userId = ""
  · exact ⟨l, by simp [toggleSave, hu], h⟩
  cases b
  · by_cases hc : evId ∈ l
    · exact ⟨l, by simp [toggleSave, readSavedIds, hu, hc], h⟩
    · refine ⟨l ++ [evId], by simp [toggleSave, readSavedIds, hu, hc], ?_⟩
      simp [List.nodup_append, h, hc]
  · exact ⟨l.filter (fun id => id ≠ evId),
      by simp [toggleSave, readSavedIds, hu], h.filter _⟩

theorem toggleSave_preserves_nodup_witness :
    ∃ l', (toggleSave "u1" "e2" false (some (Except.ok ["e1"]))).store
            = some (Except.ok l') ∧ l'.Nodup :=
  toggleSave_preserves_nodup "u1" "e2" false ["e1"] (by decide)

/-- C9: with no `user_id` in local storage, `toggleSave` and `signal` return
immediately after the onboarding alert: the `saved_events` slot is unchanged
and no network request is issued, for every event, signal kind, save state and
prior storage state. -/
theorem toggleSave_signal_no_user (evId : String) (b : Bool)
    (store : Option (Except String (List String))) (kind : SignalKind) :
    toggleSave "" evId b store = ⟨store, ["Please onboard first."], []⟩ ∧
    signal kind "" evId b store = ⟨store, ["Please onboard first."], []⟩ := by
  constructor
  · simp [toggleSave]
  · simp [signal]

theorem mem_dedupFirstAux (x : String) :
    ∀ (l seen : List String), x ∈ dedupFirstAux seen l ↔ x ∈ l ∧ x ∉ seen := by
  intro l
  induction l with
  | nil => intro seen; simp [dedupFirstAux]
  | cons a t ih =>
    intro seen
    by_cases hc : a ∈ seen
    · rw [dedupFirstAux, if_pos (by simpa using hc), ih]
      simp only [List.mem_cons]
      constructor
      · rintro ⟨hm, hs⟩
        exact ⟨Or.inr hm, hs⟩
      · rintro ⟨rfl | hm, hs⟩
        · exact absurd hc hs
        · exact ⟨hm, hs⟩
    · rw [dedupFirstAux, if_neg (by simpa using hc)]
      simp only [List.mem_cons, ih, not_or]
      constructor
      · rintro (rfl | ⟨hm, hne, hs⟩)
        · exact ⟨Or.inl rfl, hc⟩
        · exact ⟨Or.inr hm, hs⟩
      · rintro ⟨h1, hs⟩
        by_cases hxa : x = a
        · exact Or.inl hxa
        · rcases h1 with rfl | hm
          · exact Or.inl rfl
          · exact Or.inr ⟨hm, hxa, hs⟩

theorem nodup_dedupFirstAux :
    ∀ (l seen : List String), (dedupFirstAux seen l).Nodup := by
  intro l
  induction l with
  | nil => intro seen; simp [dedupFirstAux]
  | cons a t ih =>
    intro seen
    by_cases hc : a ∈ seen
    · rw [dedupFirstAux, if_pos (by simpa using hc)]
      exact ih seen
    · rw [dedupFirstAux, if_neg (by simpa using hc)]
      refine List.nodup_cons.mpr ⟨fun hmem => ?_, ih (a :: seen)⟩
      exact ((mem_dedupFirstAux a t (a :: seen)).mp hmem).2 (List.mem_cons_self a seen)

theorem dedupFirst_nodup (l : List String) : (dedupFirst l).Nodup :=
  nodup_dedupFirstAux l []

theorem mem_dedupFirst (x : String) (l : List String) :
    x ∈ dedupFirst l ↔ x ∈ l := by
  simp [dedupFirst, mem_dedupFirstAux]

/-- C3: for every list of preset selections and every custom input string, the
interests list the Onboarding submit handler builds is the deduplicated union
of the preset selections and the trimmed, non-empty comma-split custom
entries; in particular preset `tech` plus custom `"tech, robotics, "` yields
exactly `tech, robotics`. -/
theorem submittedInterests_spec (selected : List String) (custom : String) :
    (submittedInterests selected custom).Nodup ∧
    (∀ x, x ∈ submittedInterests selected custom ↔
      x ∈ selected ∨ x ∈ parseCustomInterests custom) ∧
    submittedInterests ["tech"] "tech, robotics, " = ["tech", "robotics"] := by
  refine ⟨dedupFirst_nodup _, fun x => ?_, by decide⟩
  rw [submittedInterests, mem_dedupFirst, List.mem_append]

/-- C4: when the bootstrap POST fails, the Onboarding submit handler leaves
local storage unchanged (in particular no `user_id` is written) and sets the
inline error text to the error's message; and any run of the handler that
changes the `user_id` key must have had a successful bootstrap call. -/
theorem submitOnboarding_failure (email name : String) (selected : List String)
    (custom msg : String) (s : OnbState) (h : email ≠ "") :
    (submitOnboarding email name selected custom (Except.error msg) s).1.store
      = s.store ∧
    (submitOnboarding email name selected custom (Except.error msg) s).1.error
      = some msg ∧
    ∀ b : Except String String,
      storeGet (submitOnboarding email name selected custom b s).1.store
          "user_id"
        ≠ storeGet s.store "user_id" →
      ∃ uid, b = Except.ok uid := by
  refine ⟨by simp [submitOnboarding, h], by simp [submitOnboarding, h], ?_⟩
  intro b hb
  cases b with
  | ok uid => exact ⟨uid, rfl⟩
  | error m =>
    exfalso
    apply hb
    rw [show (submitOnboarding email name selected custom (Except.error m)
        s).1.store = s.store from by simp [submitOnboarding, h]]

theorem submitOnboarding_failure_witness :
    (submitOnboarding "buzz@gatech.edu" "Buzz" ["tech"] ""
        (Except.error "500 Internal Server Error") ⟨[], none, none⟩).1.store
      = (⟨[], none, none⟩ : OnbState).store ∧
    (submitOnboarding "buzz@gatech.edu" "Buzz" ["tech"] ""
        (Except.error "500 Internal Server Error") ⟨[], none, none⟩).1.error
      = some "500 Internal Server Error" ∧
    ∀ b : Except String String,
      storeGet (submitOnboarding "buzz@gatech.edu" "Buzz" ["tech"] "" b
          ⟨[], none, none⟩).1.store "user_id"
        ≠ storeGet (⟨[], none, none⟩ : OnbState).store "user_id" →
      ∃ uid, b = Except.ok uid :=
  submitOnboarding_failure "buzz@gatech.edu" "Buzz" ["tech"] ""
    "500 Internal Server Error" ⟨[], none, none⟩ (by decide)

/-- C7: each HTTP helper throws the generic error carrying the response's
HTTP status and status text exactly when the response status is outside the
success range 200-299; on a success status it returns the JSON-decoded
body. -/
theorem httpHelpers_status_error_iff {α : Type} (path body : String)
    (params : List (String × String)) (r : FetchResponse α) :
    (respOk r.status = false →
      getJSON path r = Except.error (FetchErr.http r.status r.statusText) ∧
      postJSON path body r
        = Except.error (FetchErr.http r.status r.statusText) ∧
      deleteJSON path params r
        = Except.error (FetchErr.http r.status r.statusText)) ∧
    (respOk r.status = true → ∀ v, r.json = Except.ok v →
      getJSON path r = Except.ok v ∧ postJSON path body r = Except.ok v ∧
      deleteJSON path params r = Except.ok v) ∧
    (∀ st txt,
      (getJSON path r = Except.error (FetchErr.http st txt) ∨
       postJSON path body r = Except.error (FetchErr.http st txt) ∨
       deleteJSON path params r = Except.error (FetchErr.http st txt)) →
      respOk r.status = false) := by
  refine ⟨fun hok => ?_, fun hok v hv => ?_, fun st txt hcase => ?_⟩
  · simp [getJSON, postJSON, deleteJSON, hok]
  · simp [getJSON, postJSON, deleteJSON, hok, hv, Except.mapError]
  · by_contra hno
    rw [Bool.not_eq_false] at hno
    rcases hcase with hc | hc | hc <;>
      cases hj : r.json <;>
      simp [getJSON, postJSON, deleteJSON, hno, hj, Except.mapError] at hc

theorem httpHelpers_witness :
    getJSON "/events/feed" (⟨404, "Not Found", Except.ok 5⟩ : FetchResponse Nat)
      = Except.error (FetchErr.http 404 "Not Found") ∧
    postJSON "/feedback" "" (⟨404, "Not Found", Except.ok 5⟩ : FetchResponse Nat)
      = Except.error (FetchErr.http 404 "Not Found") ∧
    deleteJSON "/x" [] (⟨404, "Not Found", Except.ok 5⟩ : FetchResponse Nat)
      = Except.error (FetchErr.http 404 "Not Found") :=
  (httpHelpers_status_error_iff "/events/feed" "" []
    (⟨404, "Not Found", Except.ok 5⟩ : FetchResponse Nat)).1 (by decide)

theorem jsTrim_eq_empty {s : String} (h : ∀ c ∈ s.data, c.isWhitespace) :
    jsTrim s = "" := by
  unfold jsTrim jsTrimL
  rw [List.dropWhile_eq_nil_iff.mpr h]
  rfl

/-- C6: for every query consisting only of whitespace characters (the empty
string included), the Feed view's `doSearch` performs exactly the same action
as `loadFeed` on page 1: same request path, same resulting view state. -/
theorem doSearch_blank_eq_loadFeed (enc : String → String) (userId q : String)
    (feedResp : FeedResponse) (searchResp : List EventT) (s : FeedState)
    (h : ∀ c ∈ q.data, c.isWhitespace) :
    doSearch enc userId q feedResp searchResp s
      = loadFeed userId 1 feedResp s := by
  rw [doSearch, if_pos (jsTrim_eq_empty h)]

theorem doSearch_blank_witness :
    doSearch (fun x => x) "u1" "  " ⟨[], ⟨1, 1, 0, 20, false, false⟩⟩ []
        ⟨[], none, 3, true⟩
      = loadFeed "u1" 1 ⟨[], ⟨1, 1, 0, 20, false, false⟩⟩ ⟨[], none, 3, true⟩ :=
  doSearch_blank_eq_loadFeed (fun x => x) "u1" "  "
    ⟨[], ⟨1, 1, 0, 20, false, false⟩⟩ [] ⟨[], none, 3, true⟩ (by decide)

/-- Concrete event starting March 1, for the sort example. -/
def evMarch1 : EventT :=
  { id := "e1", title := "March 1 talk", start_time := "2025-03-01T09:00Z" }

/-- Concrete event starting March 2, for the sort example. -/
def evMarch2 : EventT :=
  { id := "e2", title := "March 2 talk", start_time := "2025-03-02T10:00Z" }

/-- Concrete instantiation of `new Date(s).getTime()` on the two example
start times (epoch milliseconds; the earlier instant maps to the smaller
value). -/
def exDateVal (s : String) : Nat :=
  if s = "2025-03-01T09:00Z" then 1740819600000 else 1740909600000

/-- C5: for every saved-id set and feed response, the Saved-events loader
displays exactly the feed events whose id is in the saved set, sorted
ascending by start time; with an absent user id or an empty saved set it
shows an empty-state message and issues no feed fetch; and on the example
inputs arriving in the order March 2, March 1 it renders March 1 before
March 2. -/
theorem savedEvents_filter_sort (dateVal : String → Nat) (userId : String)
    (ids : List String) (feed : Option (List EventT)) :
    (userId ≠ "" → ids ≠ [] →
      (loadSavedEvents dateVal userId (some (Except.ok ids))
          feed).savedEvents.Perm
        ((feed.getD []).filter (fun e => ids.contains e.id)) ∧
      (loadSavedEvents dateVal userId (some (Except.ok ids))
          feed).savedEvents.Sorted (startLe dateVal) ∧
      (loadSavedEvents dateVal userId (some (Except.ok ids)) feed).fetched
        = true) ∧
    (userId = "" →
      (loadSavedEvents dateVal userId (some (Except.ok ids)) feed).fetched
        = false ∧
      renderSavedEvents userId
          (loadSavedEvents dateVal userId (some (Except.ok ids))
            feed).savedEvents
        = SavedView.onboardPrompt) ∧
    (userId ≠ "" → ids = [] →
      (loadSavedEvents dateVal userId (some (Except.ok ids)) feed).fetched
        = false ∧
      (loadSavedEvents dateVal userId (some (Except.ok ids)) feed).savedEvents
        = [] ∧
      renderSavedEvents userId
          (loadSavedEvents dateVal userId (some (Except.ok ids))
            feed).savedEvents
        = SavedView.emptyState) ∧
    (loadSavedEvents exDateVal "u1" (some (Except.ok ["e1", "e2"]))
        (some [evMarch2, evMarch1])).savedEvents = [evMarch1, evMarch2] := by
  refine ⟨fun hu hids => ?_, fun hu => ?_, fun hu hids => ?_, by decide⟩
  · have hlen : ids.length ≠ 0 := by simpa [List.length_eq_zero] using hids
    simp only [loadSavedEvents, readSavedIds, Option.getD_some, if_neg hu,
      if_neg hlen, sortByStartTime]
    exact ⟨List.perm_insertionSort _ _, List.sorted_insertionSort _ _,
      trivial⟩
  · simp [loadSavedEvents, renderSavedEvents, hu]
  · subst hids
    simp [loadSavedEvents, readSavedIds, renderSavedEvents, hu]

theorem savedEvents_filter_sort_witness :
    (loadSavedEvents exDateVal "u1" (some (Except.ok ["e1", "e2"]))
        (some [evMarch2, evMarch1])).savedEvents.Perm
      (((some [evMarch2, evMarch1]).getD []).filter
        (fun e => (["e1", "e2"] : List String).contains e.id)) ∧
    (loadSavedEvents exDateVal "u1" (some (Except.ok ["e1", "e2"]))
        (some [evMarch2, evMarch1])).savedEvents.Sorted (startLe exDateVal) ∧
    (loadSavedEvents exDateVal "u1" (some (Except.ok ["e1", "e2"]))
        (some [evMarch2, evMarch1])).fetched = true :=
  (savedEvents_filter_sort exDateVal "u1" ["e1", "e2"]
    (some [evMarch2, evMarch1])).1 (by decide) (by decide)

/-- C8: a `saved_events` value that fails to parse is swallowed by both
readers: `checkIfSaved` yields the not-saved state with a console diagnostic,
the Saved-events loader yields an empty displayed list with a console
diagnostic (and the view then shows the empty state), and a missing key
defaults to the empty list. -/
theorem savedEvents_parse_failure (dateVal : String → Nat)
    (evId msg userId : String) (feed : Option (List EventT))
    (h : userId ≠ "") :
    checkIfSaved evId (some (Except.error msg)) = ⟨false, true⟩ ∧
    loadSavedEvents dateVal userId (some (Except.error msg)) feed
      = ⟨[], false, true⟩ ∧
    renderSavedEvents userId
        (loadSavedEvents dateVal userId (some (Except.error msg))
          feed).savedEvents
      = SavedView.emptyState ∧
    readSavedIds none = Except.ok [] ∧
    checkIfSaved evId none = ⟨false, false⟩ := by
  refine ⟨rfl, ?_, ?_, rfl, rfl⟩
  · simp [loadSavedEvents, readSavedIds, h]
  · simp [loadSavedEvents, renderSavedEvents, readSavedIds, h]

theorem savedEvents_parse_failure_witness :
    checkIfSaved "e1" (some (Except.error "Unexpected token"))
      = ⟨false, true⟩ ∧
    loadSavedEvents exDateVal "u1" (some (Except.error "Unexpected token"))
        (some [evMarch1]) = ⟨[], false, true⟩ ∧
    renderSavedEvents "u1"
        (loadSavedEvents exDateVal "u1"
          (some (Except.error "Unexpected token"))
          (some [evMarch1])).savedEvents
      = SavedView.emptyState ∧
    readSavedIds none = Except.ok [] ∧
    checkIfSaved "e1" none = ⟨false, false⟩ :=
  savedEvents_parse_failure exDateVal "e1" "Unexpected token" "u1"
    (some [evMarch1]) (by decide)

theorem stripWww_cons (rest : List Char) :
    stripWww (String.mk ('w' :: 'w' :: 'w' :: '.' :: rest))
      = String.mk rest := by
  have ht : List.take 4 ('w' :: 'w' :: 'w' :: '.' :: rest)
      = ['w', 'w', 'w', '.'] := rfl
  have hd : List.drop 4 ('w' :: 'w' :: 'w' :: '.' :: rest) = rest := rfl
  rw [stripWww]
  simp only [ht, hd]
  simp

theorem stripWww_of_no_www (host : String)
    (h : ∀ rest, host.data ≠ 'w' :: 'w' :: 'w' :: '.' :: rest) :
    stripWww host = host := by
  rw [stripWww, if_neg]
  intro htake
  apply h (host.data.drop 4)
  conv_lhs => rw [← List.take_append_drop 4 host.data]
  rw [htake]
  rfl

/-- C10: the `domain` derivation of `EventCard` is total: an absent url
yields the empty string, an unparsable url yields the empty string instead of
propagating the `new URL` exception, and otherwise it yields the hostname
with one leading `www.` stripped. -/
theorem domain_total (parseHost : String → Option String) (ev : EventT) :
    (ev.url = none → domain parseHost ev = "") ∧
    (∀ u, ev.url = some u → u ≠ "" → parseHost u = none →
      domain parseHost ev = "") ∧
    (∀ u host, ev.url = some u → u ≠ "" → parseHost u = some host →
      (∀ rest, host.data = 'w' :: 'w' :: 'w' :: '.' :: rest →
        domain parseHost ev = String.mk rest) ∧
      ((∀ rest, host.data ≠ 'w' :: 'w' :: 'w' :: '.' :: rest) →
        domain parseHost ev = host)) := by
  refine ⟨fun hu => ?_, fun u hu hne hp => ?_, fun u host hu hne hp => ?_⟩
  · simp [domain, hu]
  · simp [domain, hu, hne, hp]
  · have hd : domain parseHost ev = stripWww host := by
      simp [domain, hu, hne, hp]
    constructor
    · intro rest hrest
      have hh : String.mk host.data
          = String.mk ('w' :: 'w' :: 'w' :: '.' :: rest) :=
        congrArg String.mk hrest
      rw [hd, show stripWww host = stripWww (String.mk host.data) from rfl,
        hh, stripWww_cons]
    · intro hno
      rw [hd, stripWww_of_no_www host hno]

theorem domain_total_witness :
    domain
        (fun u => if u = "https://www.example.com/x"
          then some "www.example.com" else none)
        { id := "e1", title := "t", start_time := "2025-03-01T09:00Z",
          url := some "https://www.example.com/x" }
      = String.mk ['e', 'x', 'a', 'm', 'p', 'l', 'e', '.', 'c', 'o', 'm'] :=
  ((domain_total
      (fun u => if u = "https://www.example.com/x"
        then some "www.example.com" else none)
      { id := "e1", title := "t", start_time := "2025-03-01T09:00Z",
        url := some "https://www.example.com/x" }).2.2
    "https://www.example.com/x" "www.example.com" rfl (by decide)
    (by decide)).1
    ['e', 'x', 'a', 'm', 'p', 'l', 'e', '.', 'c', 'o', 'm'] (by decide)

end RamblinRecs
